import Mathlib

/-!
Shallow embedding of the cs2-arbitrage-bot core in Lean 4.

Sources embedded:
- src/cs2arb/config.py                 (Config values used by the core)
- src/cs2arb/clients/buff_client.py    (BuffSaleDTO, BuffItemDTO.overall_min_price)
- src/cs2arb/ingestion/buff_prices.py  (is_within_price_range, is_allowed_item_type,
                                        create_price_snapshot)
- src/cs2arb/core/arbitrage_engine.py  (_compute_signal_for_listing,
                                        _compute_buff_to_csfloat_signal,
                                        deactivate_stale_signals, get_top_signals)
- src/cs2arb/db/models.py              (entity rows; Trade derived metrics)

Machine floats are modelled as rationals; datetimes as rational hours on a
common timeline; the SQLAlchemy session as an explicit store record; SQL
first()/order_by-desc-first as List.find? / a max-timestamp fold.
-/

namespace CS2Arb

/-- Configuration values consumed by the core (config.py, class Config).
Fees and rates are decimals; prices USD; only the fields the embedded
functions read are kept. -/
structure Config where
  fx_cny_to_usd : ℚ
  buff_sell_fee_pct : ℚ
  csfloat_buy_fee_pct : ℚ
  csfloat_sell_fee_pct : ℚ
  min_price_usd : ℚ
  max_price_usd : ℚ
  min_roi_csfloat_to_buff : ℚ
  min_roi_buff_to_csfloat : ℚ
  min_csfloat_listings : ℤ
  min_watchers : ℤ
  allowed_item_types : List String
deriving DecidableEq

/-- Data transfer object for a Buff sale/price entry (buff_client.py, BuffSaleDTO). -/
structure BuffSaleDTO where
  min_price : ℚ
  tag_name : Option String
deriving DecidableEq

/-- Data transfer object for a Buff item (buff_client.py, BuffItemDTO). -/
structure BuffItemDTO where
  goods_id : ℤ
  market_hash_name : String
  stat_time : Option ℤ
  sales : List BuffSaleDTO
deriving DecidableEq

/-- BuffItemDTO.overall_min_price: None when sales is empty, otherwise the
Python min() over all sales entries' min_price. -/
def BuffItemDTO.overall_min_price (d : BuffItemDTO) : Option ℚ :=
  match d.sales with
  | [] => none
  | s :: rest => some (rest.foldl (fun m x => min m x.min_price) s.min_price)

/-- Row of the buff_price_snapshots table as created by create_price_snapshot
(models.py BuffPriceSnapshot fields it fills; tag_floors models the JSON dict,
none when the dict is empty). -/
structure BuffPriceSnapshotRow where
  goods_id : ℤ
  overall_min_price : ℚ
  tag_floors : Option (List (String × ℚ))
  stat_time : Option ℤ
  within_target_range : Bool
deriving DecidableEq

/-- Python dict insertion with last-write-wins on a repeated key, on an
association list (models tag_floors[sale.tag_name] = sale.min_price). -/
def insertTag (m : List (String × ℚ)) (k : String) (v : ℚ) : List (String × ℚ) :=
  if m.any (fun p => p.1 == k) then m.map (fun p => if p.1 == k then (k, v) else p)
  else m ++ [(k, v)]

/-- Loop of create_price_snapshot building the tag_floors dict: entries with a
tag_name contribute their min_price. -/
def build_tag_floors (sales : List BuffSaleDTO) : List (String × ℚ) :=
  sales.foldl
    (fun m s =>
      match s.tag_name with
      | none => m
      | some t => insertTag m t s.min_price) []

/-- is_within_price_range (buff_prices.py): CNY price converted at the FX rate
must land inside the configured USD band, inclusive. -/
def is_within_price_range (price_cny : ℚ) (c : Config) : Bool :=
  decide (c.min_price_usd ≤ price_cny * c.fx_cny_to_usd) &&
    decide (price_cny * c.fx_cny_to_usd ≤ c.max_price_usd)

/-- create_price_snapshot (buff_prices.py): returns none when
overall_min_price is None or ≤ 0, otherwise a snapshot row with the overall
minimum and tag floors. -/
def create_price_snapshot (d : BuffItemDTO) (c : Config) :
    Option BuffPriceSnapshotRow :=
  match d.overall_min_price with
  | none => none
  | some overall_min =>
    if overall_min ≤ 0 then none
    else
      some
        { goods_id := d.goods_id
          overall_min_price := overall_min
          tag_floors :=
            match build_tag_floors d.sales with
            | [] => none
            | tf => some tf
          stat_time := d.stat_time
          within_target_range := is_within_price_range overall_min c }

/-! String helpers mirroring the Python str operations used by
is_allowed_item_type, working on the character list of a string. -/

/-- Python str.startswith on character lists. -/
def beginsWith : List Char → List Char → Bool
  | [], _ => true
  | _ :: _, [] => false
  | p :: ps, c :: cs => p == c && beginsWith ps cs

/-- Python str.endswith on character lists. -/
def endsWithCL (pat s : List Char) : Bool :=
  beginsWith pat.reverse s.reverse

/-- Python substring containment (pat in s) on character lists. -/
def containsCL (pat : List Char) : List Char → Bool
  | [] => pat.isEmpty
  | c :: rest => beginsWith pat (c :: rest) || containsCL pat rest

/-- Python str.lower, as the character list of the lowered string (ASCII). -/
def lowerCL (s : String) : List Char :=
  s.data.map Char.toLower

/-- is_allowed_item_type (buff_prices.py): ordered first-match classification
of a market hash name against the configured allowed item types. An empty
allowed set means no filter (allow all). -/
def is_allowed_item_type (market_hash_name : String) (c : Config) : Bool :=
  if c.allowed_item_types.isEmpty then true
  else
    let nl := lowerCL market_hash_name
    if beginsWith "sticker |".data nl then
      c.allowed_item_types.contains "sticker"
    else if containsCL "graffiti |".data nl || beginsWith "sealed graffiti".data nl then
      c.allowed_item_types.contains "graffiti"
    else if beginsWith "patch |".data nl then
      c.allowed_item_types.contains "patch"
    else if containsCL "agent |".data nl || containsCL "operator |".data nl then
      c.allowed_item_types.contains "agent"
    else if beginsWith "music kit |".data nl then
      c.allowed_item_types.contains "music_kit"
    else if endsWithCL " case".data nl || endsWithCL " key".data nl then
      c.allowed_item_types.contains "case" || c.allowed_item_types.contains "key"
    else if containsCL "capsule".data nl || containsCL "package".data nl ||
        containsCL "pass".data nl || containsCL "pin".data nl then
      false
    else if beginsWith "★".data nl then
      if containsCL "gloves".data nl || containsCL "hand wraps".data nl ||
          containsCL "driver gloves".data nl || containsCL "specialist gloves".data nl ||
          containsCL "sport gloves".data nl || containsCL "moto gloves".data nl ||
          containsCL "hydra gloves".data nl || containsCL "broken fang gloves".data nl then
        c.allowed_item_types.contains "gloves"
      else
        c.allowed_item_types.contains "knife"
    else if containsCL " | ".data market_hash_name.data &&
        containsCL "(".data market_hash_name.data then
      c.allowed_item_types.contains "weapon"
    else
      true

/-! Entity rows of the store (db/models.py) as read by the engine, with
datetimes as rational hours on a shared timeline. -/

/-- Row of buff_items (models.py BuffItem), the fields the engine reads. -/
structure BuffItem where
  goods_id : ℤ
  market_hash_name : String
deriving DecidableEq

/-- Row of buff_price_snapshots as read by the engine (models.py
BuffPriceSnapshot): goods_id, insertion timestamp, CNY floor. -/
structure BuffPriceSnapshot where
  goods_id : ℤ
  timestamp : ℚ
  overall_min_price : ℚ
deriving DecidableEq

/-- Row of csfloat_listings (models.py CSFloatListing), the fields the engine
reads: integer cents price, liquidity indicators, activity flag. -/
structure CSFloatListing where
  id : ℤ
  csfloat_id : String
  market_hash_name : String
  price_cents : ℤ
  reference_quantity : Option ℤ
  watchers : Option ℤ
  is_active : Bool
deriving DecidableEq

/-- Row of arbitrage_signals (models.py ArbitrageSignal). -/
structure ArbitrageSignal where
  id : ℤ
  direction : String
  market_hash_name : String
  buff_goods_id : Option ℤ
  csfloat_listing_id : Option ℤ
  buff_floor_cny : Option ℚ
  buff_floor_usd : Option ℚ
  csfloat_price_usd : Option ℚ
  roi_pct : ℚ
  created_at : ℚ
  note : Option String
  is_active : Bool
  acted_on : Bool
deriving DecidableEq

/-- The transactional keyed store (the SQLAlchemy session's view of the three
tables the engine touches), plus the autoincrement counter for new signal
rows. -/
structure Store where
  buff_items : List BuffItem
  snapshots : List BuffPriceSnapshot
  signals : List ArbitrageSignal
  next_id : ℤ
deriving DecidableEq

/-- Query session.query(BuffPriceSnapshot).filter(goods_id ==
gid).order_by(timestamp.desc()).first(): among snapshots for the item, one
with maximal timestamp (earliest row wins a tie). -/
def latest_snapshot (snaps : List BuffPriceSnapshot) (gid : ℤ) :
    Option BuffPriceSnapshot :=
  (snaps.filter (fun s => s.goods_id == gid)).foldl
    (fun acc s =>
      match acc with
      | none => some s
      | some b => if b.timestamp < s.timestamp then some s else acc) none

/-- Filter of the active-signal lookup in _compute_signal_for_listing:
csfloat_listing_id == listing.id, direction == "CSFLOAT_TO_BUFF",
is_active == True. -/
def matches_active_a (lid : ℤ) (s : ArbitrageSignal) : Bool :=
  s.csfloat_listing_id == some lid && s.direction == "CSFLOAT_TO_BUFF" && s.is_active

/-- Filter of the active-signal lookup in _compute_buff_to_csfloat_signal:
market_hash_name match, direction == "BUFF_TO_CSFLOAT", is_active == True. -/
def matches_active_b (name : String) (s : ArbitrageSignal) : Bool :=
  s.market_hash_name == name && s.direction == "BUFF_TO_CSFLOAT" && s.is_active

/-- In-place update applied to an existing active signal by both computation
functions: exactly the four price/ROI fields are reassigned. -/
def update_signal_prices (cny usd cs roi : ℚ) (s : ArbitrageSignal) :
    ArbitrageSignal :=
  { s with
    buff_floor_cny := some cny
    buff_floor_usd := some usd
    csfloat_price_usd := some cs
    roi_pct := roi }

/-- Replacement of the first element satisfying p by its image under f,
modelling mutation of the single row returned by query(...).first(). -/
def updateFirst (p : α → Bool) (f : α → α) : List α → List α
  | [] => []
  | x :: xs => if p x then f x :: xs else x :: updateFirst p f xs

/-- Section of _compute_signal_for_listing (arbitrage_engine.py): resolve the
Buff item by name, the latest snapshot, reject snapshots older than 24 hours,
compute netBuy/netSell/ROI, gate on netBuy ≤ 0 and the direction-A minimum,
then update the existing active signal for (CSFLOAT_TO_BUFF, listing id) in
place or insert a new one (created_at set by the store at insertion time
now). Returns the store after the pass and the signal returned. -/
def compute_signal_for_listing (st : Store) (l : CSFloatListing) (c : Config)
    (now : ℚ) : Store × Option ArbitrageSignal :=
  match st.buff_items.find? (fun i => i.market_hash_name == l.market_hash_name) with
  | none => (st, none)
  | some buff_item =>
    match latest_snapshot st.snapshots buff_item.goods_id with
    | none => (st, none)
    | some buff_snapshot =>
      if buff_snapshot.timestamp < now - 24 then (st, none)
      else
        let csfloat_price_usd : ℚ := (l.price_cents : ℚ) / 100
        let buff_floor_cny := buff_snapshot.overall_min_price
        let buff_floor_usd := buff_floor_cny * c.fx_cny_to_usd
        let net_buy_cost := csfloat_price_usd * (1 + c.csfloat_buy_fee_pct)
        let net_sell_proceeds := buff_floor_usd * (1 - c.buff_sell_fee_pct)
        if net_buy_cost ≤ 0 then (st, none)
        else
          let roi_pct := (net_sell_proceeds - net_buy_cost) / net_buy_cost
          if roi_pct < c.min_roi_csfloat_to_buff then (st, none)
          else
            match st.signals.find? (matches_active_a l.id) with
            | some existing =>
              let updated :=
                update_signal_prices buff_floor_cny buff_floor_usd
                  csfloat_price_usd roi_pct existing
              ({ st with
                  signals :=
                    updateFirst (matches_active_a l.id)
                      (update_signal_prices buff_floor_cny buff_floor_usd
                        csfloat_price_usd roi_pct) st.signals },
                some updated)
            | none =>
              let signal : ArbitrageSignal :=
                { id := st.next_id
                  direction := "CSFLOAT_TO_BUFF"
                  market_hash_name := l.market_hash_name
                  buff_goods_id := some buff_item.goods_id
                  csfloat_listing_id := some l.id
                  buff_floor_cny := some buff_floor_cny
                  buff_floor_usd := some buff_floor_usd
                  csfloat_price_usd := some csfloat_price_usd
                  roi_pct := roi_pct
                  created_at := now
                  note := none
                  is_active := true
                  acted_on := false }
              ({ st with
                  signals := st.signals ++ [signal]
                  next_id := st.next_id + 1 },
                some signal)

/-- Section of _compute_buff_to_csfloat_signal (arbitrage_engine.py): resolve
the Buff item and latest snapshot (no staleness check), take the cheapest
CSFloat listing fetched live (given here as an argument, the client being an
external collaborator), compute netBuy using the buff_sell_fee_pct constant
on the buy side, netSell, ROI, gate on netBuy ≤ 0 and the direction-B
minimum, then update or insert the active signal keyed by
(BUFF_TO_CSFLOAT, market hash name). -/
def compute_buff_to_csfloat_signal (st : Store) (market_hash_name : String)
    (fetched : Option CSFloatListing) (c : Config) (now : ℚ) :
    Store × Option ArbitrageSignal :=
  match st.buff_items.find? (fun i => i.market_hash_name == market_hash_name) with
  | none => (st, none)
  | some buff_item =>
    match latest_snapshot st.snapshots buff_item.goods_id with
    | none => (st, none)
    | some buff_snapshot =>
      match fetched with
      | none => (st, none)
      | some csfloat_listing =>
        let buff_floor_cny := buff_snapshot.overall_min_price
        let buff_floor_usd := buff_floor_cny * c.fx_cny_to_usd
        let csfloat_floor_usd : ℚ := (csfloat_listing.price_cents : ℚ) / 100
        let net_buy_cost := buff_floor_usd * (1 + c.buff_sell_fee_pct)
        let net_sell_proceeds := csfloat_floor_usd * (1 - c.csfloat_sell_fee_pct)
        if net_buy_cost ≤ 0 then (st, none)
        else
          let roi_pct := (net_sell_proceeds - net_buy_cost) / net_buy_cost
          if roi_pct < c.min_roi_buff_to_csfloat then (st, none)
          else
            match st.signals.find? (matches_active_b market_hash_name) with
            | some existing =>
              let updated :=
                update_signal_prices buff_floor_cny buff_floor_usd
                  csfloat_floor_usd roi_pct existing
              ({ st with
                  signals :=
                    updateFirst (matches_active_b market_hash_name)
                      (update_signal_prices buff_floor_cny buff_floor_usd
                        csfloat_floor_usd roi_pct) st.signals },
                some updated)
            | none =>
              let signal : ArbitrageSignal :=
                { id := st.next_id
                  direction := "BUFF_TO_CSFLOAT"
                  market_hash_name := market_hash_name
                  buff_goods_id := some buff_item.goods_id
                  csfloat_listing_id := none
                  buff_floor_cny := some buff_floor_cny
                  buff_floor_usd := some buff_floor_usd
                  csfloat_price_usd := some csfloat_floor_usd
                  roi_pct := roi_pct
                  created_at := now
                  note := none
                  is_active := true
                  acted_on := false }
              ({ st with
                  signals := st.signals ++ [signal]
                  next_id := st.next_id + 1 },
                some signal)

/-- Staleness condition of deactivate_stale_signals: active and created
before cutoff = now − max_age_hours. -/
def stale_pred (now max_age_hours : ℚ) (s : ArbitrageSignal) : Bool :=
  s.is_active && decide (s.created_at < now - max_age_hours)

/-- Effect of the sweep loop on one signal row: signal.is_active = False for
the rows the staleness query returned, nothing for the rest. -/
def sweep_row (now max_age_hours : ℚ) (s : ArbitrageSignal) :
    ArbitrageSignal :=
  if stale_pred now max_age_hours s then { s with is_active := false } else s

/-- deactivate_stale_signals (arbitrage_engine.py): set is_active := False on
every active signal created before now − max_age_hours; return the updated
store and the number of signals deactivated. -/
def deactivate_stale_signals (st : Store) (now max_age_hours : ℚ) :
    Store × ℕ :=
  ({ st with signals := st.signals.map (sweep_row now max_age_hours) },
    (st.signals.filter (stale_pred now max_age_hours)).length)

/-- get_top_signals (arbitrage_engine.py): filter by active flag, by
direction when one is given (Python truthiness: the empty string, like None,
applies no filter), by minimum ROI when one is given; sort by ROI descending;
truncate to limit. -/
def get_top_signals (st : Store) (direction : Option String)
    (min_roi : Option ℚ) (limit : ℕ) (active_only : Bool) :
    List ArbitrageSignal :=
  let q1 := if active_only then st.signals.filter (fun s => s.is_active) else st.signals
  let q2 :=
    match direction with
    | none => q1
    | some d => if d == "" then q1 else q1.filter (fun s => s.direction == d)
  let q3 :=
    match min_roi with
    | none => q2
    | some r => q2.filter (fun s => decide (r ≤ s.roi_pct))
  (q3.mergeSort (fun a b => decide (b.roi_pct ≤ a.roi_pct))).take limit

/-- Row of trades (models.py Trade), the fields the derived metrics read;
times in rational hours. -/
structure Trade where
  market_hash_name : String
  direction : String
  buy_market : String
  sell_market : Option String
  buy_price_usd : ℚ
  sell_price_usd : Option ℚ
  buy_time : ℚ
  sell_time : Option ℚ
  note : Option String
deriving DecidableEq

/-- Trade.roi_pct (models.py): None without a sell price, otherwise
(sell − buy) / buy. -/
def Trade.roi_pct (t : Trade) : Option ℚ :=
  match t.sell_price_usd with
  | none => none
  | some sp => some ((sp - t.buy_price_usd) / t.buy_price_usd)

/-- Trade.profit_usd (models.py): None without a sell price, otherwise
sell − buy. -/
def Trade.profit_usd (t : Trade) : Option ℚ :=
  match t.sell_price_usd with
  | none => none
  | some sp => some (sp - t.buy_price_usd)

/-- Trade.hold_days (models.py): None without a sell time, otherwise the
timedelta's day count, i.e. the floor of the hour difference over 24. -/
def Trade.hold_days (t : Trade) : Option ℤ :=
  match t.sell_time with
  | none => none
  | some ts => some ⌊(ts - t.buy_time) / 24⌋

/-! Concrete fixtures used by witnesses and counterexamples. -/

/-- Configuration with the defaults of config.py (fees and thresholds as in
class Config). -/
def cfgDefault : Config :=
  { fx_cny_to_usd := 14/100
    buff_sell_fee_pct := 25/1000
    csfloat_buy_fee_pct := 0
    csfloat_sell_fee_pct := 2/100
    min_price_usd := 100
    max_price_usd := 1500
    min_roi_csfloat_to_buff := 8/100
    min_roi_buff_to_csfloat := 10/100
    min_csfloat_listings := 5
    min_watchers := 0
    allowed_item_types := ["weapon", "knife", "gloves"] }

/-- Configuration with an empty allowed-category set. -/
def cfgNoFilter : Config := { cfgDefault with allowed_item_types := [] }

/-- Market-A record with one positive and one non-positive per-tag minimum. -/
def dtoMixed : BuffItemDTO :=
  { goods_id := 1
    market_hash_name := "AK-47 | Redline (Field-Tested)"
    stat_time := none
    sales := [{ min_price := 5, tag_name := none }, { min_price := 0, tag_name := none }] }

/-- Market-A record with two positive per-tag minimums. -/
def dtoGood : BuffItemDTO :=
  { goods_id := 2
    market_hash_name := "M4A4 | Asiimov (Field-Tested)"
    stat_time := none
    sales := [{ min_price := 5, tag_name := some "normal" }, { min_price := 3, tag_name := none }] }

/-! Facts about the left fold of min, the shape Python's min() takes in the
embedding of overall_min_price. -/

theorem foldl_min_le_init : ∀ (xs : List ℚ) (a : ℚ), xs.foldl min a ≤ a
  | [], _ => le_refl _
  | x :: xs, a => le_trans (foldl_min_le_init xs (min a x)) (min_le_left a x)

theorem foldl_min_le_mem : ∀ (xs : List ℚ) (a p : ℚ), p ∈ xs → xs.foldl min a ≤ p := by
  intro xs
  induction xs with
  | nil => intro a p hp; cases hp
  | cons x xs ih =>
    intro a p hp
    rcases List.mem_cons.mp hp with h | h
    · rw [h, List.foldl_cons]
      exact le_trans (foldl_min_le_init xs (min a x)) (min_le_right a x)
    · exact ih (min a x) p h

theorem foldl_min_mem : ∀ (xs : List ℚ) (a : ℚ),
    xs.foldl min a = a ∨ xs.foldl min a ∈ xs := by
  intro xs
  induction xs with
  | nil => intro a; exact Or.inl rfl
  | cons x xs ih =>
    intro a
    rcases ih (min a x) with h | h
    · rcases min_choice a x with hc | hc
      · exact Or.inl (by rw [List.foldl_cons, h, hc])
      · exact Or.inr (by rw [List.foldl_cons, h, hc]; exact List.mem_cons_self x xs)
    · exact Or.inr (List.mem_cons_of_mem x h)

theorem foldl_min_pos_iff (xs : List ℚ) (a : ℚ) :
    0 < xs.foldl min a ↔ 0 < a ∧ ∀ p ∈ xs, 0 < p := by
  constructor
  · intro h
    exact ⟨lt_of_lt_of_le h (foldl_min_le_init xs a),
      fun p hp => lt_of_lt_of_le h (foldl_min_le_mem xs a p hp)⟩
  · rintro ⟨ha, hall⟩
    rcases foldl_min_mem xs a with h | h
    · rw [h]; exact ha
    · rw [show xs.foldl min a = xs.foldl min a from rfl]
      exact hall _ h

/-- C1 (amended): a market-A record yields a price snapshot if and only if
it has at least one sale entry and every per-tag minimum is positive; when a
snapshot is produced, its floor is the minimum of all per-tag minimums (a
member of them and a lower bound for them). The code takes the minimum over
all entries, not only the positive ones, and drops the record whenever that
minimum is non-positive. -/
theorem C1_floor_amended (d : BuffItemDTO) (c : Config) :
    ((create_price_snapshot d c).isSome ↔
      d.sales ≠ [] ∧ ∀ s ∈ d.sales, 0 < s.min_price) ∧
    (∀ snap, create_price_snapshot d c = some snap →
      snap.overall_min_price ∈ d.sales.map (fun s => s.min_price) ∧
      ∀ p ∈ d.sales.map (fun s => s.min_price), snap.overall_min_price ≤ p) := by
  obtain ⟨gid, name, stat, sales⟩ := d
  cases sales with
  | nil =>
    constructor
    · simp [create_price_snapshot, BuffItemDTO.overall_min_price]
    · intro snap h
      simp [create_price_snapshot, BuffItemDTO.overall_min_price] at h
  | cons s rest =>
    have hfold : rest.foldl (fun m x => min m x.min_price) s.min_price
        = (rest.map (fun x => x.min_price)).foldl min s.min_price := by
      rw [List.foldl_map]
    have hpos : 0 < rest.foldl (fun m x => min m x.min_price) s.min_price ↔
        0 < s.min_price ∧ ∀ x ∈ rest, 0 < x.min_price := by
      rw [hfold, foldl_min_pos_iff]
      simp
    constructor
    · by_cases hle : rest.foldl (fun m x => min m x.min_price) s.min_price ≤ 0
      · have hnot : ¬ (0 < rest.foldl (fun m x => min m x.min_price) s.min_price) :=
          not_lt.mpr hle
        simp only [create_price_snapshot, BuffItemDTO.overall_min_price, hle,
          if_true, Option.isSome_none]
        constructor
        · intro h; cases h
        · rintro ⟨-, hall⟩
          exact absurd (hpos.mpr ⟨hall s (List.mem_cons_self s rest),
            fun x hx => hall x (List.mem_cons_of_mem s hx)⟩) hnot
      · simp only [create_price_snapshot, BuffItemDTO.overall_min_price, hle,
          if_false, Option.isSome_some]
        have h := hpos.mp (lt_of_not_le hle)
        constructor
        · intro _
          refine ⟨by simp, ?_⟩
          intro x hx
          rcases List.mem_cons.mp hx with hh | hh
          · exact hh ▸ h.1
          · exact h.2 x hh
        · intro _; trivial
    · intro snap hsnap
      by_cases hle : rest.foldl (fun m x => min m x.min_price) s.min_price ≤ 0
      · simp [create_price_snapshot, BuffItemDTO.overall_min_price, hle] at hsnap
      · simp only [create_price_snapshot, BuffItemDTO.overall_min_price, hle,
          if_false, Option.some.injEq] at hsnap
        have hmin : snap.overall_min_price
            = rest.foldl (fun m x => min m x.min_price) s.min_price := by
          rw [← hsnap]
        constructor
        · rw [hmin, hfold]
          rcases foldl_min_mem (rest.map (fun x => x.min_price)) s.min_price with h | h
          · rw [h]; simp
          · simp only [List.map_cons, List.mem_cons]
            exact Or.inr h
        · intro p hp
          rw [hmin, hfold]
          rcases List.mem_cons.mp hp with h | h
          · exact h ▸ foldl_min_le_init _ _
          · exact foldl_min_le_mem _ _ p h

/-- Witness for C1: on a record whose two per-tag minimums are 5 and 3 the
snapshot is produced and its floor, 3, is a member of and a lower bound for
the per-tag minimums. -/
theorem C1_floor_amended_witness :
    dtoGood.sales ≠ [] ∧ (∀ s ∈ dtoGood.sales, 0 < s.min_price) ∧
    (create_price_snapshot dtoGood cfgDefault).isSome = true ∧
    ∃ snap, create_price_snapshot dtoGood cfgDefault = some snap ∧
      snap.overall_min_price ∈ dtoGood.sales.map (fun s => s.min_price) ∧
      ∀ p ∈ dtoGood.sales.map (fun s => s.min_price), snap.overall_min_price ≤ p := by
  refine ⟨by decide, by decide, ?_, ?_⟩
  · exact ((C1_floor_amended dtoGood cfgDefault).1).mpr ⟨by decide, by decide⟩
  · refine ⟨_, rfl, ((C1_floor_amended dtoGood cfgDefault).2 _ rfl).1,
      ((C1_floor_amended dtoGood cfgDefault).2 _ rfl).2⟩

/-- Counterexample for C1 as stated: a record with a positive sale price (5)
but also a non-positive one (0) yields no snapshot at all — the code's
overall minimum is 0, which is rejected — while the claim promises a
snapshot with floor 5. -/
theorem C1_counterexample :
    (∃ s ∈ dtoMixed.sales, 0 < s.min_price) ∧
    create_price_snapshot dtoMixed cfgDefault = none := by
  constructor
  · exact ⟨{ min_price := 5, tag_name := none }, by decide, by decide⟩
  · rfl

/-- C2 (amended): a cross-market key containing any of the substrings
"capsule", "package", "pass", "pin" (after lowering) and matching none of the
six earlier ordered rules is excluded for every NONEMPTY configured
allowed-category set; with the empty set the function returns true for every
key before any rule is consulted. -/
theorem C2_capsule_excluded (name : String) (c : Config)
    (hne : c.allowed_item_types ≠ [])
    (h1 : beginsWith "sticker |".data (lowerCL name) = false)
    (h2 : containsCL "graffiti |".data (lowerCL name) = false)
    (h2b : beginsWith "sealed graffiti".data (lowerCL name) = false)
    (h3 : beginsWith "patch |".data (lowerCL name) = false)
    (h4 : containsCL "agent |".data (lowerCL name) = false)
    (h4b : containsCL "operator |".data (lowerCL name) = false)
    (h5 : beginsWith "music kit |".data (lowerCL name) = false)
    (h6 : endsWithCL " case".data (lowerCL name) = false)
    (h6b : endsWithCL " key".data (lowerCL name) = false)
    (h7 : containsCL "capsule".data (lowerCL name) = true ∨
          containsCL "package".data (lowerCL name) = true ∨
          containsCL "pass".data (lowerCL name) = true ∨
          containsCL "pin".data (lowerCL name) = true) :
    is_allowed_item_type name c = false := by
  have hni : c.allowed_item_types.isEmpty = false := by
    cases hal : c.allowed_item_types with
    | nil => exact absurd hal hne
    | cons a as => rfl
  have h7' : (containsCL "capsule".data (lowerCL name) ||
      containsCL "package".data (lowerCL name) ||
      containsCL "pass".data (lowerCL name) ||
      containsCL "pin".data (lowerCL name)) = true := by
    rcases h7 with h | h | h | h <;> simp [h]
  unfold is_allowed_item_type
  simp only [hni, h1, h2, h2b, h3, h4, h4b, h5, h6, h6b, h7']
  simp

/-- Witness for C2: the key "Berlin 2019 Capsule" matches none of rules 1–6,
contains "capsule", and is excluded under the default allowed set. -/
theorem C2_capsule_excluded_witness :
    cfgDefault.allowed_item_types ≠ [] ∧
    is_allowed_item_type "Berlin 2019 Capsule" cfgDefault = false :=
  ⟨by decide,
    C2_capsule_excluded "Berlin 2019 Capsule" cfgDefault (by decide) (by decide)
      (by decide) (by decide) (by decide) (by decide) (by decide) (by decide)
      (by decide) (by decide) (Or.inl (by decide))⟩

/-- Counterexample for C2 as stated: with the EMPTY allowed-category set the
function returns true (allow) even for a key containing "capsule" that
matches none of the earlier rules, because the empty set disables the filter
before any rule runs. -/
theorem C2_counterexample :
    containsCL "capsule".data (lowerCL "Berlin 2019 Capsule") = true ∧
    is_allowed_item_type "Berlin 2019 Capsule" cfgNoFilter = true := by
  constructor
  · decide
  · decide

/-! Branch analyses of the two computation functions, shared by the claim
theorems below. -/

/-- Branches of _compute_signal_for_listing once the item is resolved and the
snapshot is fresh: the netBuy ≤ 0 gate, the ROI-threshold gate, and the
signal produced above the threshold carrying the computed ROI. -/
theorem compute_a_branches (st : Store) (l : CSFloatListing) (c : Config)
    (now : ℚ) (bi : BuffItem) (snap : BuffPriceSnapshot)
    (hitem : st.buff_items.find?
      (fun i => i.market_hash_name == l.market_hash_name) = some bi)
    (hsnap : latest_snapshot st.snapshots bi.goods_id = some snap)
    (hfresh : ¬ snap.timestamp < now - 24) :
    (((l.price_cents : ℚ) / 100) * (1 + c.csfloat_buy_fee_pct) ≤ 0 →
      compute_signal_for_listing st l c now = (st, none)) ∧
    (0 < ((l.price_cents : ℚ) / 100) * (1 + c.csfloat_buy_fee_pct) →
      (snap.overall_min_price * c.fx_cny_to_usd * (1 - c.buff_sell_fee_pct) -
          ((l.price_cents : ℚ) / 100) * (1 + c.csfloat_buy_fee_pct)) /
          (((l.price_cents : ℚ) / 100) * (1 + c.csfloat_buy_fee_pct)) <
        c.min_roi_csfloat_to_buff →
      compute_signal_for_listing st l c now = (st, none)) ∧
    (0 < ((l.price_cents : ℚ) / 100) * (1 + c.csfloat_buy_fee_pct) →
      ¬ (snap.overall_min_price * c.fx_cny_to_usd * (1 - c.buff_sell_fee_pct) -
          ((l.price_cents : ℚ) / 100) * (1 + c.csfloat_buy_fee_pct)) /
          (((l.price_cents : ℚ) / 100) * (1 + c.csfloat_buy_fee_pct)) <
        c.min_roi_csfloat_to_buff →
      ∃ sig, (compute_signal_for_listing st l c now).2 = some sig ∧
        sig.roi_pct =
          (snap.overall_min_price * c.fx_cny_to_usd * (1 - c.buff_sell_fee_pct) -
            ((l.price_cents : ℚ) / 100) * (1 + c.csfloat_buy_fee_pct)) /
            (((l.price_cents : ℚ) / 100) * (1 + c.csfloat_buy_fee_pct))) := by
  unfold compute_signal_for_listing
  rw [hitem]; dsimp only
  rw [hsnap]; dsimp only
  rw [if_neg hfresh]
  refine ⟨?_, ?_, ?_⟩
  · intro hb
    rw [if_pos hb]
  · intro hb hroi
    rw [if_neg (not_le.mpr hb), if_pos hroi]
  · intro hb hroi
    rw [if_neg (not_le.mpr hb), if_neg hroi]
    cases hfind : st.signals.find? (matches_active_a l.id) with
    | some existing => exact ⟨_, rfl, rfl⟩
    | none => exact ⟨_, rfl, rfl⟩

/-- A stale snapshot (older than 24 hours) makes _compute_signal_for_listing
return without touching the store. -/
theorem compute_a_stale (st : Store) (l : CSFloatListing) (c : Config)
    (now : ℚ) (bi : BuffItem) (snap : BuffPriceSnapshot)
    (hitem : st.buff_items.find?
      (fun i => i.market_hash_name == l.market_hash_name) = some bi)
    (hsnap : latest_snapshot st.snapshots bi.goods_id = some snap)
    (hstale : snap.timestamp < now - 24) :
    compute_signal_for_listing st l c now = (st, none) := by
  unfold compute_signal_for_listing
  rw [hitem]; dsimp only
  rw [hsnap]; dsimp only
  rw [if_pos hstale]

/-- In the update branch of _compute_signal_for_listing the stored signals
become updateFirst of the active match by update_signal_prices at the
computed prices and ROI. -/
theorem compute_a_update (st : Store) (l : CSFloatListing) (c : Config)
    (now : ℚ) (bi : BuffItem) (snap : BuffPriceSnapshot) (s₀ : ArbitrageSignal)
    (hitem : st.buff_items.find?
      (fun i => i.market_hash_name == l.market_hash_name) = some bi)
    (hsnap : latest_snapshot st.snapshots bi.goods_id = some snap)
    (hfresh : ¬ snap.timestamp < now - 24)
    (hbuy : 0 < ((l.price_cents : ℚ) / 100) * (1 + c.csfloat_buy_fee_pct))
    (hroi : ¬ (snap.overall_min_price * c.fx_cny_to_usd * (1 - c.buff_sell_fee_pct) -
        ((l.price_cents : ℚ) / 100) * (1 + c.csfloat_buy_fee_pct)) /
        (((l.price_cents : ℚ) / 100) * (1 + c.csfloat_buy_fee_pct)) <
      c.min_roi_csfloat_to_buff)
    (hfind : st.signals.find? (matches_active_a l.id) = some s₀) :
    (compute_signal_for_listing st l c now).1.signals =
      updateFirst (matches_active_a l.id)
        (update_signal_prices snap.overall_min_price
          (snap.overall_min_price * c.fx_cny_to_usd)
          ((l.price_cents : ℚ) / 100)
          ((snap.overall_min_price * c.fx_cny_to_usd * (1 - c.buff_sell_fee_pct) -
            ((l.price_cents : ℚ) / 100) * (1 + c.csfloat_buy_fee_pct)) /
            (((l.price_cents : ℚ) / 100) * (1 + c.csfloat_buy_fee_pct))))
        st.signals ∧
    (compute_signal_for_listing st l c now).2 =
      some (update_signal_prices snap.overall_min_price
        (snap.overall_min_price * c.fx_cny_to_usd)
        ((l.price_cents : ℚ) / 100)
        ((snap.overall_min_price * c.fx_cny_to_usd * (1 - c.buff_sell_fee_pct) -
          ((l.price_cents : ℚ) / 100) * (1 + c.csfloat_buy_fee_pct)) /
          (((l.price_cents : ℚ) / 100) * (1 + c.csfloat_buy_fee_pct))) s₀) := by
  unfold compute_signal_for_listing
  rw [hitem]; dsimp only
  rw [hsnap]; dsimp only
  rw [if_neg hfresh, if_neg (not_le.mpr hbuy), if_neg hroi, hfind]
  exact ⟨rfl, rfl⟩

/-- Branches of _compute_buff_to_csfloat_signal once the item, snapshot and
fetched cheapest listing are resolved: netBuy is built from the Buff
sell-fee constant, and the gates mirror direction A with direction B's own
minimum. No condition on the snapshot's timestamp appears. -/
theorem compute_b_branches (st : Store) (name : String)
    (fetched : Option CSFloatListing) (c : Config) (now : ℚ)
    (bi : BuffItem) (snap : BuffPriceSnapshot) (li : CSFloatListing)
    (hitem : st.buff_items.find?
      (fun i => i.market_hash_name == name) = some bi)
    (hsnap : latest_snapshot st.snapshots bi.goods_id = some snap)
    (hfetch : fetched = some li) :
    (snap.overall_min_price * c.fx_cny_to_usd * (1 + c.buff_sell_fee_pct) ≤ 0 →
      compute_buff_to_csfloat_signal st name fetched c now = (st, none)) ∧
    (0 < snap.overall_min_price * c.fx_cny_to_usd * (1 + c.buff_sell_fee_pct) →
      (((li.price_cents : ℚ) / 100) * (1 - c.csfloat_sell_fee_pct) -
          snap.overall_min_price * c.fx_cny_to_usd * (1 + c.buff_sell_fee_pct)) /
          (snap.overall_min_price * c.fx_cny_to_usd * (1 + c.buff_sell_fee_pct)) <
        c.min_roi_buff_to_csfloat →
      compute_buff_to_csfloat_signal st name fetched c now = (st, none)) ∧
    (0 < snap.overall_min_price * c.fx_cny_to_usd * (1 + c.buff_sell_fee_pct) →
      ¬ (((li.price_cents : ℚ) / 100) * (1 - c.csfloat_sell_fee_pct) -
          snap.overall_min_price * c.fx_cny_to_usd * (1 + c.buff_sell_fee_pct)) /
          (snap.overall_min_price * c.fx_cny_to_usd * (1 + c.buff_sell_fee_pct)) <
        c.min_roi_buff_to_csfloat →
      ∃ sig, (compute_buff_to_csfloat_signal st name fetched c now).2 = some sig ∧
        sig.roi_pct =
          (((li.price_cents : ℚ) / 100) * (1 - c.csfloat_sell_fee_pct) -
            snap.overall_min_price * c.fx_cny_to_usd * (1 + c.buff_sell_fee_pct)) /
            (snap.overall_min_price * c.fx_cny_to_usd * (1 + c.buff_sell_fee_pct))) := by
  unfold compute_buff_to_csfloat_signal
  rw [hitem]; dsimp only
  rw [hsnap]; dsimp only
  rw [hfetch]; dsimp only
  refine ⟨?_, ?_, ?_⟩
  · intro hb
    rw [if_pos hb]
  · intro hb hroi
    rw [if_neg (not_le.mpr hb), if_pos hroi]
  · intro hb hroi
    rw [if_neg (not_le.mpr hb), if_neg hroi]
    cases hfind : st.signals.find? (matches_active_b name) with
    | some existing => exact ⟨_, rfl, rfl⟩
    | none => exact ⟨_, rfl, rfl⟩

/-! Concrete engine fixtures. -/

/-- Configuration with the defaults but a unit FX rate, so CNY floors read
directly as USD. -/
def cfgFx1 : Config := { cfgDefault with fx_cny_to_usd := 1 }

/-- Canonical item fixture for direction A. -/
def itemW : BuffItem :=
  { goods_id := 1, market_hash_name := "AWP | Asiimov (Field-Tested)" }

/-- Fresh snapshot fixture: floor 130 CNY at hour 10. -/
def snapW : BuffPriceSnapshot :=
  { goods_id := 1, timestamp := 10, overall_min_price := 130 }

/-- Listing fixture: 10000 cents, liquid, active. -/
def listingW : CSFloatListing :=
  { id := 7, csfloat_id := "cf-7"
    market_hash_name := "AWP | Asiimov (Field-Tested)"
    price_cents := 10000, reference_quantity := some 10
    watchers := some 3, is_active := true }

/-- Store fixture for direction A: one item, one snapshot, no signals. -/
def storeW : Store :=
  { buff_items := [itemW], snapshots := [snapW], signals := [], next_id := 1 }

/-- Canonical item fixture for direction B. -/
def itemB : BuffItem :=
  { goods_id := 2, market_hash_name := "M9 Bayonet | Doppler (Factory New)" }

/-- Snapshot fixture for direction B: floor 100 CNY at hour 10. -/
def snapB : BuffPriceSnapshot :=
  { goods_id := 2, timestamp := 10, overall_min_price := 100 }

/-- Cheapest fetched listing fixture for direction B: 12000 cents. -/
def listingB : CSFloatListing :=
  { id := 8, csfloat_id := "cf-8"
    market_hash_name := "M9 Bayonet | Doppler (Factory New)"
    price_cents := 12000, reference_quantity := some 10
    watchers := some 3, is_active := true }

/-- Store fixture for direction B. -/
def storeB : Store :=
  { buff_items := [itemB], snapshots := [snapB], signals := [], next_id := 1 }

/-- Item fixture whose only snapshot is ancient. -/
def item3 : BuffItem :=
  { goods_id := 3, market_hash_name := "AK-47 | Vulcan (Minimal Wear)" }

/-- Ancient snapshot fixture: hour −2000, floor 100 CNY. -/
def snapOld : BuffPriceSnapshot :=
  { goods_id := 3, timestamp := -2000, overall_min_price := 100 }

/-- Listing fixture over the ancient-snapshot item. -/
def listing3 : CSFloatListing :=
  { id := 9, csfloat_id := "cf-9"
    market_hash_name := "AK-47 | Vulcan (Minimal Wear)"
    price_cents := 12000, reference_quantity := some 10
    watchers := some 3, is_active := true }

/-- Store fixture whose only snapshot for the item is ancient. -/
def storeOld : Store :=
  { buff_items := [item3], snapshots := [snapOld], signals := [], next_id := 1 }

/-- C3: for a direction-A computation with a resolved item and a fresh
snapshot, netBuy = listingPrice × (1 + buyFeeB) and
netSell = floorA × fxRate × (1 − sellFeeA); the listing is skipped when
netBuy ≤ 0, no signal is produced when ROI = (netSell − netBuy)/netBuy is
below the direction-A minimum, and above it the produced signal carries that
ROI. -/
theorem C3_direction_a_roi (st : Store) (l : CSFloatListing) (c : Config)
    (now : ℚ) (bi : BuffItem) (snap : BuffPriceSnapshot)
    (hitem : st.buff_items.find?
      (fun i => i.market_hash_name == l.market_hash_name) = some bi)
    (hsnap : latest_snapshot st.snapshots bi.goods_id = some snap)
    (hfresh : ¬ snap.timestamp < now - 24) :
    (((l.price_cents : ℚ) / 100) * (1 + c.csfloat_buy_fee_pct) ≤ 0 →
      compute_signal_for_listing st l c now = (st, none)) ∧
    (0 < ((l.price_cents : ℚ) / 100) * (1 + c.csfloat_buy_fee_pct) →
      (snap.overall_min_price * c.fx_cny_to_usd * (1 - c.buff_sell_fee_pct) -
          ((l.price_cents : ℚ) / 100) * (1 + c.csfloat_buy_fee_pct)) /
          (((l.price_cents : ℚ) / 100) * (1 + c.csfloat_buy_fee_pct)) <
        c.min_roi_csfloat_to_buff →
      compute_signal_for_listing st l c now = (st, none)) ∧
    (0 < ((l.price_cents : ℚ) / 100) * (1 + c.csfloat_buy_fee_pct) →
      ¬ (snap.overall_min_price * c.fx_cny_to_usd * (1 - c.buff_sell_fee_pct) -
          ((l.price_cents : ℚ) / 100) * (1 + c.csfloat_buy_fee_pct)) /
          (((l.price_cents : ℚ) / 100) * (1 + c.csfloat_buy_fee_pct)) <
        c.min_roi_csfloat_to_buff →
      ∃ sig, (compute_signal_for_listing st l c now).2 = some sig ∧
        sig.roi_pct =
          (snap.overall_min_price * c.fx_cny_to_usd * (1 - c.buff_sell_fee_pct) -
            ((l.price_cents : ℚ) / 100) * (1 + c.csfloat_buy_fee_pct)) /
            (((l.price_cents : ℚ) / 100) * (1 + c.csfloat_buy_fee_pct))) :=
  compute_a_branches st l c now bi snap hitem hsnap hfresh

/-- Witness for C3: listing price $100 (10000 cents), buy fee 0, floor 130
CNY at unit FX (so $130), sell fee 2.5% — the produced signal's ROI is
0.2675. -/
theorem C3_direction_a_roi_witness :
    (0:ℚ) < ((listingW.price_cents : ℚ) / 100) * (1 + cfgFx1.csfloat_buy_fee_pct) ∧
    ∃ sig, (compute_signal_for_listing storeW listingW cfgFx1 20).2 = some sig ∧
      sig.roi_pct = 2675 / 10000 := by
  have hb : (0:ℚ) <
      ((listingW.price_cents : ℚ) / 100) * (1 + cfgFx1.csfloat_buy_fee_pct) := by
    norm_num [listingW, cfgFx1, cfgDefault]
  have hroi : ¬ (snapW.overall_min_price * cfgFx1.fx_cny_to_usd *
        (1 - cfgFx1.buff_sell_fee_pct) -
        ((listingW.price_cents : ℚ) / 100) * (1 + cfgFx1.csfloat_buy_fee_pct)) /
        (((listingW.price_cents : ℚ) / 100) * (1 + cfgFx1.csfloat_buy_fee_pct)) <
      cfgFx1.min_roi_csfloat_to_buff := by
    norm_num [listingW, snapW, cfgFx1, cfgDefault]
  have hfresh : ¬ snapW.timestamp < (20:ℚ) - 24 := by
    norm_num [snapW]
  refine ⟨hb, ?_⟩
  obtain ⟨sig, h1, h2⟩ :=
    (C3_direction_a_roi storeW listingW cfgFx1 20 itemW snapW rfl rfl hfresh).2.2
      hb hroi
  refine ⟨sig, h1, ?_⟩
  rw [h2]
  norm_num [listingW, snapW, cfgFx1, cfgDefault]

/-- C7: for a direction-B computation with resolved item, snapshot and
cheapest fetched listing, netBuy = floorA × fxRate × (1 + sellFeeA) — built
from the Buff sell-fee constant, there being no distinct buy-fee field —
netSell = listingPrice × (1 − sellFeeB), and a signal is produced only when
ROI meets direction B's own minimum (and then carries that ROI). -/
theorem C7_direction_b_fee (st : Store) (name : String)
    (fetched : Option CSFloatListing) (c : Config) (now : ℚ)
    (bi : BuffItem) (snap : BuffPriceSnapshot) (li : CSFloatListing)
    (hitem : st.buff_items.find?
      (fun i => i.market_hash_name == name) = some bi)
    (hsnap : latest_snapshot st.snapshots bi.goods_id = some snap)
    (hfetch : fetched = some li) :
    (snap.overall_min_price * c.fx_cny_to_usd * (1 + c.buff_sell_fee_pct) ≤ 0 →
      compute_buff_to_csfloat_signal st name fetched c now = (st, none)) ∧
    (0 < snap.overall_min_price * c.fx_cny_to_usd * (1 + c.buff_sell_fee_pct) →
      (((li.price_cents : ℚ) / 100) * (1 - c.csfloat_sell_fee_pct) -
          snap.overall_min_price * c.fx_cny_to_usd * (1 + c.buff_sell_fee_pct)) /
          (snap.overall_min_price * c.fx_cny_to_usd * (1 + c.buff_sell_fee_pct)) <
        c.min_roi_buff_to_csfloat →
      compute_buff_to_csfloat_signal st name fetched c now = (st, none)) ∧
    (0 < snap.overall_min_price * c.fx_cny_to_usd * (1 + c.buff_sell_fee_pct) →
      ¬ (((li.price_cents : ℚ) / 100) * (1 - c.csfloat_sell_fee_pct) -
          snap.overall_min_price * c.fx_cny_to_usd * (1 + c.buff_sell_fee_pct)) /
          (snap.overall_min_price * c.fx_cny_to_usd * (1 + c.buff_sell_fee_pct)) <
        c.min_roi_buff_to_csfloat →
      ∃ sig, (compute_buff_to_csfloat_signal st name fetched c now).2 = some sig ∧
        sig.roi_pct =
          (((li.price_cents : ℚ) / 100) * (1 - c.csfloat_sell_fee_pct) -
            snap.overall_min_price * c.fx_cny_to_usd * (1 + c.buff_sell_fee_pct)) /
            (snap.overall_min_price * c.fx_cny_to_usd * (1 + c.buff_sell_fee_pct))) :=
  compute_b_branches st name fetched c now bi snap li hitem hsnap hfetch

/-- Witness for C7: floor 100 CNY at unit FX, so netBuy = 100 × 1.025 =
102.5 built from the sell-fee constant; cheapest listing $120, netSell =
120 × 0.98 = 117.6; ROI = 151/1025 ≈ 14.7% ≥ the 10% direction-B minimum,
and the produced signal carries it. -/
theorem C7_direction_b_fee_witness :
    (0:ℚ) < snapB.overall_min_price * cfgFx1.fx_cny_to_usd * (1 + cfgFx1.buff_sell_fee_pct) ∧
    ∃ sig,
      (compute_buff_to_csfloat_signal storeB "M9 Bayonet | Doppler (Factory New)"
        (some listingB) cfgFx1 20).2 = some sig ∧
      sig.roi_pct = 151 / 1025 := by
  have hb : (0:ℚ) < snapB.overall_min_price * cfgFx1.fx_cny_to_usd *
      (1 + cfgFx1.buff_sell_fee_pct) := by
    norm_num [snapB, cfgFx1, cfgDefault]
  have hroi : ¬ (((listingB.price_cents : ℚ) / 100) * (1 - cfgFx1.csfloat_sell_fee_pct) -
        snapB.overall_min_price * cfgFx1.fx_cny_to_usd * (1 + cfgFx1.buff_sell_fee_pct)) /
        (snapB.overall_min_price * cfgFx1.fx_cny_to_usd * (1 + cfgFx1.buff_sell_fee_pct)) <
      cfgFx1.min_roi_buff_to_csfloat := by
    norm_num [listingB, snapB, cfgFx1, cfgDefault]
  refine ⟨hb, ?_⟩
  obtain ⟨sig, h1, h2⟩ :=
    (C7_direction_b_fee storeB "M9 Bayonet | Doppler (Factory New)" (some listingB)
      cfgFx1 20 itemB snapB listingB rfl rfl rfl).2.2 hb hroi
  refine ⟨sig, h1, ?_⟩
  rw [h2]
  norm_num [listingB, snapB, cfgFx1, cfgDefault]

/-- C10: direction B applies no staleness window to the market-A snapshot —
for every snapshot (its timestamp unconstrained) the computation can produce
a signal — while direction A returns without a signal whenever the snapshot
is older than 24 hours. -/
theorem C10_snapshot_staleness_asymmetry :
    (∀ (st : Store) (name : String) (fetched : Option CSFloatListing)
        (c : Config) (now : ℚ) (bi : BuffItem) (snap : BuffPriceSnapshot)
        (li : CSFloatListing),
      st.buff_items.find?
        (fun i => i.market_hash_name == name) = some bi →
      latest_snapshot st.snapshots bi.goods_id = some snap →
      fetched = some li →
      0 < snap.overall_min_price * c.fx_cny_to_usd * (1 + c.buff_sell_fee_pct) →
      ¬ (((li.price_cents : ℚ) / 100) * (1 - c.csfloat_sell_fee_pct) -
          snap.overall_min_price * c.fx_cny_to_usd * (1 + c.buff_sell_fee_pct)) /
          (snap.overall_min_price * c.fx_cny_to_usd * (1 + c.buff_sell_fee_pct)) <
        c.min_roi_buff_to_csfloat →
      (compute_buff_to_csfloat_signal st name fetched c now).2.isSome = true) ∧
    (∀ (st : Store) (l : CSFloatListing) (c : Config) (now : ℚ)
        (bi : BuffItem) (snap : BuffPriceSnapshot),
      st.buff_items.find?
        (fun i => i.market_hash_name == l.market_hash_name) = some bi →
      latest_snapshot st.snapshots bi.goods_id = some snap →
      snap.timestamp < now - 24 →
      compute_signal_for_listing st l c now = (st, none)) := by
  constructor
  · intro st name fetched c now bi snap li hitem hsnap hfetch hb hroi
    obtain ⟨sig, h1, -⟩ :=
      (compute_b_branches st name fetched c now bi snap li hitem hsnap hfetch).2.2
        hb hroi
    rw [h1]
    rfl
  · intro st l c now bi snap hitem hsnap hstale
    exact compute_a_stale st l c now bi snap hitem hsnap hstale

/-- Witness for C10: over a store whose only snapshot for the item dates to
hour −2000, direction B still produces a signal at hour 0, while direction A
over the very same store and item skips the listing. -/
theorem C10_snapshot_staleness_asymmetry_witness :
    (compute_buff_to_csfloat_signal storeOld "AK-47 | Vulcan (Minimal Wear)"
      (some listing3) cfgFx1 0).2.isSome = true ∧
    compute_signal_for_listing storeOld listing3 cfgFx1 0 = (storeOld, none) := by
  constructor
  · exact C10_snapshot_staleness_asymmetry.1 storeOld
      "AK-47 | Vulcan (Minimal Wear)" (some listing3) cfgFx1 0 item3 snapOld
      listing3 rfl rfl rfl (by norm_num [snapOld, cfgFx1, cfgDefault])
      (by norm_num [listing3, snapOld, cfgFx1, cfgDefault])
  · exact C10_snapshot_staleness_asymmetry.2 storeOld listing3 cfgFx1 0 item3
      snapOld rfl rfl (by norm_num [snapOld])

/-- Invariant of direction A: at most one active CSFLOAT_TO_BUFF signal per
listing id. -/
def at_most_one_active_a (sigs : List ArbitrageSignal) : Prop :=
  ∀ lid : ℤ, (sigs.filter (matches_active_a lid)).length ≤ 1

/-- update_signal_prices leaves the identity/activity fields alone, so the
active-match test is unchanged by it. -/
theorem matches_active_a_update (lid : ℤ) (cny usd cs roi : ℚ)
    (s : ArbitrageSignal) :
    matches_active_a lid (update_signal_prices cny usd cs roi s) =
      matches_active_a lid s := rfl

/-- Replacing the first p-match by f does not change the length of a
q-filter when f preserves the value of q. -/
theorem updateFirst_filter_length (p q : α → Bool) (f : α → α)
    (hf : ∀ x, q (f x) = q x) :
    ∀ xs : List α,
      ((updateFirst p f xs).filter q).length = (xs.filter q).length := by
  intro xs
  induction xs with
  | nil => rfl
  | cons x xs ih =>
    cases hx : p x with
    | true =>
      simp only [updateFirst, hx, if_true]
      cases hq : q x with
      | true => simp [List.filter_cons, hf x, hq]
      | false => simp [List.filter_cons, hf x, hq]
    | false =>
      simp only [updateFirst, hx, Bool.false_eq_true, if_false]
      cases hq : q x with
      | true => simp [List.filter_cons, hq, ih]
      | false => simp [List.filter_cons, hq, ih]

/-- The stored signal list after a direction-A pass: unchanged, or the first
active match updated in place, or (exactly when no active match existed) one
new active signal for this listing appended. -/
theorem compute_a_signals_shape (st : Store) (l : CSFloatListing) (c : Config)
    (now : ℚ) :
    (compute_signal_for_listing st l c now).1.signals = st.signals ∨
    (∃ cny usd cs roi,
      (compute_signal_for_listing st l c now).1.signals =
        updateFirst (matches_active_a l.id) (update_signal_prices cny usd cs roi)
          st.signals) ∨
    (∃ sig, (compute_signal_for_listing st l c now).1.signals =
        st.signals ++ [sig] ∧
      st.signals.find? (matches_active_a l.id) = none ∧
      sig.csfloat_listing_id = some l.id ∧ sig.direction = "CSFLOAT_TO_BUFF" ∧
      sig.is_active = true) := by
  unfold compute_signal_for_listing
  cases hitem : st.buff_items.find?
      (fun i => i.market_hash_name == l.market_hash_name) with
  | none => exact Or.inl rfl
  | some bi =>
    dsimp only
    cases hsnap : latest_snapshot st.snapshots bi.goods_id with
    | none => exact Or.inl rfl
    | some snap =>
      dsimp only
      split
      · exact Or.inl rfl
      · split
        · exact Or.inl rfl
        · split
          · exact Or.inl rfl
          · cases hfind : st.signals.find? (matches_active_a l.id) with
            | some s₀ => exact Or.inr (Or.inl ⟨_, _, _, _, rfl⟩)
            | none => exact Or.inr (Or.inr ⟨_, rfl, rfl, rfl, rfl, rfl⟩)

/-- C4: a direction-A computation pass preserves the invariant of at most one
active signal per (CSFLOAT_TO_BUFF, listing-id) key — an existing active
signal is updated in place, and a new one is inserted only when no active
match exists. -/
theorem C4_unique_active_per_listing (st : Store) (l : CSFloatListing)
    (c : Config) (now : ℚ) (h : at_most_one_active_a st.signals) :
    at_most_one_active_a (compute_signal_for_listing st l c now).1.signals := by
  intro lid
  rcases compute_a_signals_shape st l c now with heq |
    ⟨cny, usd, cs, roi, heq⟩ | ⟨sig, heq, hfind, hlid, hdir, hact⟩
  · rw [heq]
    exact h lid
  · rw [heq, updateFirst_filter_length (matches_active_a l.id)
      (matches_active_a lid) _ (fun s => matches_active_a_update lid cny usd cs roi s)]
    exact h lid
  · rw [heq, List.filter_append, List.length_append]
    by_cases hl : lid = l.id
    · have hnil : st.signals.filter (matches_active_a lid) = [] :=
        List.filter_eq_nil_iff.mpr (fun a ha => by
          rw [hl]
          simpa using List.find?_eq_none.mp hfind a ha)
      have hm : matches_active_a lid sig = true := by
        simp [matches_active_a, hlid, hdir, hact, hl]
      simp [hnil, List.filter, hm]
    · have hm : matches_active_a lid sig = false := by
        simp [matches_active_a, hlid, hdir, hact]
        exact fun hc => absurd hc.symm hl
      have hone := h lid
      simp [List.filter, hm]
      omega

/-- Witness for C4: over the empty signal store the invariant holds and is
preserved by the concrete direction-A pass that inserts a signal. -/
theorem C4_unique_active_per_listing_witness :
    at_most_one_active_a storeW.signals ∧
    at_most_one_active_a
      (compute_signal_for_listing storeW listingW cfgFx1 20).1.signals := by
  have h0 : at_most_one_active_a storeW.signals := by
    intro lid
    simp [storeW, at_most_one_active_a]
  exact ⟨h0, C4_unique_active_per_listing storeW listingW cfgFx1 20 h0⟩

/-- A swept row is never stale again for the same sweep parameters. -/
theorem stale_pred_sweep_row (now mah : ℚ) (s : ArbitrageSignal) :
    stale_pred now mah (sweep_row now mah s) = false := by
  unfold sweep_row
  cases hs : stale_pred now mah s with
  | false => simpa using hs
  | true => simp [stale_pred]

/-- Sweeping a row twice equals sweeping it once. -/
theorem sweep_row_idem (now mah : ℚ) (s : ArbitrageSignal) :
    sweep_row now mah (sweep_row now mah s) = sweep_row now mah s := by
  have h := stale_pred_sweep_row now mah s
  rw [sweep_row, h]
  simp

/-- C5: the staleness sweep with max age 24h turns is_active off exactly on
the active signals created more than 24 hours before now, leaves every other
signal entirely unchanged, and is idempotent — a second identical sweep
returns the same store and deactivates zero signals. -/
theorem C5_sweep_exact_idempotent (st : Store) (now : ℚ) :
    List.Forall₂ (fun s s' =>
      (s.is_active = true ∧ s.created_at < now - 24 →
        s' = { s with is_active := false }) ∧
      (¬ (s.is_active = true ∧ s.created_at < now - 24) → s' = s))
      st.signals (deactivate_stale_signals st now 24).1.signals ∧
    deactivate_stale_signals (deactivate_stale_signals st now 24).1 now 24 =
      ((deactivate_stale_signals st now 24).1, 0) := by
  constructor
  · show List.Forall₂ _ st.signals (st.signals.map (sweep_row now 24))
    induction st.signals with
    | nil => exact List.Forall₂.nil
    | cons x xs ih =>
      refine List.Forall₂.cons ⟨?_, ?_⟩ ih
      · rintro ⟨h1, h2⟩
        simp [sweep_row, stale_pred, h1, h2]
      · intro hn
        have hf : stale_pred now 24 x = false := by
          cases h1 : x.is_active with
          | false => simp [stale_pred, h1]
          | true =>
            have h2 : ¬ x.created_at < now - 24 := fun h2 => hn ⟨h1, h2⟩
            simp [stale_pred, h1, h2]
        simp [sweep_row, hf]
  · have hmap : ((st.signals.map (sweep_row now 24)).map (sweep_row now 24))
        = st.signals.map (sweep_row now 24) := by
      rw [List.map_map]
      exact List.map_congr_left (fun a _ => sweep_row_idem now 24 a)
    have hfil : (st.signals.map (sweep_row now 24)).filter (stale_pred now 24)
        = [] := by
      apply List.filter_eq_nil_iff.mpr
      intro a ha
      obtain ⟨b, -, rfl⟩ := List.mem_map.mp ha
      simp [stale_pred_sweep_row]
    simp only [deactivate_stale_signals]
    rw [hmap, hfil]
    rfl

/-- Store fixture for the sweep: one stale active signal (created at hour
−10), one fresh active signal (created at hour 20). -/
def storeSweep : Store :=
  { buff_items := [], snapshots := []
    signals :=
      [{ id := 1, direction := "CSFLOAT_TO_BUFF"
         market_hash_name := "AWP | Asiimov (Field-Tested)"
         buff_goods_id := some 1, csfloat_listing_id := some 7
         buff_floor_cny := some 120, buff_floor_usd := some 120
         csfloat_price_usd := some 100, roi_pct := 17/100
         created_at := -10, note := none, is_active := true, acted_on := false },
       { id := 2, direction := "BUFF_TO_CSFLOAT"
         market_hash_name := "M9 Bayonet | Doppler (Factory New)"
         buff_goods_id := some 2, csfloat_listing_id := none
         buff_floor_cny := some 100, buff_floor_usd := some 100
         csfloat_price_usd := some 120, roi_pct := 151/1025
         created_at := 20, note := none, is_active := true, acted_on := false }]
    next_id := 3 }

/-- Witness for C5: a second sweep over the concrete two-signal store returns
the once-swept store unchanged and deactivates zero signals. -/
theorem C5_sweep_exact_idempotent_witness :
    deactivate_stale_signals (deactivate_stale_signals storeSweep 30 24).1 30 24 =
      ((deactivate_stale_signals storeSweep 30 24).1, 0) :=
  (C5_sweep_exact_idempotent storeSweep 30).2

/-- C9: when a direction-A pass updates an existing active signal, the stored
list is exactly updateFirst with update_signal_prices, which reassigns only
the four price/ROI fields — creation time, activity flag, acted-on flag,
note and all identity fields are untouched — and therefore the staleness
predicate evaluates identically on the updated and the original signal for
every sweep instant. -/
theorem C9_update_frame (st : Store) (l : CSFloatListing) (cfg : Config)
    (now : ℚ) (bi : BuffItem) (snap : BuffPriceSnapshot) (s₀ : ArbitrageSignal)
    (hitem : st.buff_items.find?
      (fun i => i.market_hash_name == l.market_hash_name) = some bi)
    (hsnap : latest_snapshot st.snapshots bi.goods_id = some snap)
    (hfresh : ¬ snap.timestamp < now - 24)
    (hbuy : 0 < ((l.price_cents : ℚ) / 100) * (1 + cfg.csfloat_buy_fee_pct))
    (hroi : ¬ (snap.overall_min_price * cfg.fx_cny_to_usd * (1 - cfg.buff_sell_fee_pct) -
        ((l.price_cents : ℚ) / 100) * (1 + cfg.csfloat_buy_fee_pct)) /
        (((l.price_cents : ℚ) / 100) * (1 + cfg.csfloat_buy_fee_pct)) <
      cfg.min_roi_csfloat_to_buff)
    (hfind : st.signals.find? (matches_active_a l.id) = some s₀) :
    (compute_signal_for_listing st l cfg now).1.signals =
      updateFirst (matches_active_a l.id)
        (update_signal_prices snap.overall_min_price
          (snap.overall_min_price * cfg.fx_cny_to_usd)
          ((l.price_cents : ℚ) / 100)
          ((snap.overall_min_price * cfg.fx_cny_to_usd * (1 - cfg.buff_sell_fee_pct) -
            ((l.price_cents : ℚ) / 100) * (1 + cfg.csfloat_buy_fee_pct)) /
            (((l.price_cents : ℚ) / 100) * (1 + cfg.csfloat_buy_fee_pct))))
        st.signals ∧
    (∀ (a b c r : ℚ) (s : ArbitrageSignal),
      (update_signal_prices a b c r s).created_at = s.created_at ∧
      (update_signal_prices a b c r s).is_active = s.is_active ∧
      (update_signal_prices a b c r s).acted_on = s.acted_on ∧
      (update_signal_prices a b c r s).note = s.note ∧
      (update_signal_prices a b c r s).id = s.id ∧
      (update_signal_prices a b c r s).direction = s.direction ∧
      (update_signal_prices a b c r s).market_hash_name = s.market_hash_name ∧
      (update_signal_prices a b c r s).buff_goods_id = s.buff_goods_id ∧
      (update_signal_prices a b c r s).csfloat_listing_id = s.csfloat_listing_id ∧
      ∀ now2 mah : ℚ,
        stale_pred now2 mah (update_signal_prices a b c r s) =
          stale_pred now2 mah s) := by
  refine ⟨(compute_a_update st l cfg now bi snap s₀ hitem hsnap hfresh hbuy
    hroi hfind).1, ?_⟩
  intro a b c r s
  exact ⟨rfl, rfl, rfl, rfl, rfl, rfl, rfl, rfl, rfl, fun now2 mah => rfl⟩

/-- Store fixture for the in-place update: one active direction-A signal for
listing 7, created at hour −10. -/
def sigOld : ArbitrageSignal :=
  { id := 1, direction := "CSFLOAT_TO_BUFF"
    market_hash_name := "AWP | Asiimov (Field-Tested)"
    buff_goods_id := some 1, csfloat_listing_id := some 7
    buff_floor_cny := some 120, buff_floor_usd := some 120
    csfloat_price_usd := some 100, roi_pct := 17/100
    created_at := -10, note := none, is_active := true, acted_on := false }

/-- Store holding sigOld together with the direction-A item and snapshot. -/
def storeU : Store :=
  { buff_items := [itemW], snapshots := [snapW], signals := [sigOld], next_id := 2 }

/-- Witness for C9: the concrete pass over storeU takes the update branch,
and the staleness predicate agrees on the updated and the original signal at
the concrete sweep instant 20 with max age 24. -/
theorem C9_update_frame_witness :
    (compute_signal_for_listing storeU listingW cfgFx1 20).1.signals =
      updateFirst (matches_active_a listingW.id)
        (update_signal_prices snapW.overall_min_price
          (snapW.overall_min_price * cfgFx1.fx_cny_to_usd)
          ((listingW.price_cents : ℚ) / 100)
          ((snapW.overall_min_price * cfgFx1.fx_cny_to_usd *
              (1 - cfgFx1.buff_sell_fee_pct) -
            ((listingW.price_cents : ℚ) / 100) * (1 + cfgFx1.csfloat_buy_fee_pct)) /
            (((listingW.price_cents : ℚ) / 100) * (1 + cfgFx1.csfloat_buy_fee_pct))))
        storeU.signals ∧
    stale_pred 20 24 (update_signal_prices 130 130 100 (2675/10000) sigOld) =
      stale_pred 20 24 sigOld := by
  have h := C9_update_frame storeU listingW cfgFx1 20 itemW snapW sigOld rfl rfl
    (by norm_num [snapW]) (by norm_num [listingW, cfgFx1, cfgDefault])
    (by norm_num [listingW, snapW, cfgFx1, cfgDefault]) rfl
  exact ⟨h.1, (h.2 130 130 100 (2675/10000) sigOld).2.2.2.2.2.2.2.2.2 20 24⟩

/-- Core facts about sorting by descending ROI and truncating: membership is
preserved into the source list, the result is pairwise non-increasing in
ROI, and the length is bounded by the limit. -/
theorem ranking_take_core (q : List ArbitrageSignal) (n : ℕ) :
    (∀ s ∈ (List.mergeSort q (fun a b => decide (b.roi_pct ≤ a.roi_pct))).take n,
      s ∈ q) ∧
    ((List.mergeSort q (fun a b => decide (b.roi_pct ≤ a.roi_pct))).take n).Pairwise
      (fun a b => b.roi_pct ≤ a.roi_pct) ∧
    ((List.mergeSort q (fun a b => decide (b.roi_pct ≤ a.roi_pct))).take n).length
      ≤ n := by
  refine ⟨?_, ?_, List.length_take_le n _⟩
  · intro s hs
    exact List.mem_mergeSort.mp (List.take_subset n _ hs)
  · have hsorted := @List.sorted_mergeSort ArbitrageSignal
      (fun a b => decide (b.roi_pct ≤ a.roi_pct))
      (fun a b c hab hbc => by
        simp only [decide_eq_true_eq] at *
        exact le_trans hbc hab)
      (fun a b => by
        simp only [Bool.or_eq_true, decide_eq_true_eq]
        exact le_total b.roi_pct a.roi_pct) q
    have hp := List.Pairwise.sublist (List.take_sublist n _) hsorted
    exact hp.imp (fun h => by simpa using h)

/-- C6: a ranking query with active-only default, a minimum-ROI bound r and
limit n returns only active signals with ROI ≥ r, respecting a non-empty
direction filter when one is given (the Python code treats the empty string
like None: no filter), sorted non-increasing in ROI, with at most n
results. -/
theorem C6_ranking (st : Store) (dir : Option String) (r : ℚ) (n : ℕ) :
    (∀ s ∈ get_top_signals st dir (some r) n true,
      s.is_active = true ∧ r ≤ s.roi_pct ∧
        ∀ d, dir = some d → d ≠ "" → s.direction = d) ∧
    (get_top_signals st dir (some r) n true).Pairwise
      (fun a b => b.roi_pct ≤ a.roi_pct) ∧
    (get_top_signals st dir (some r) n true).length ≤ n := by
  cases dir with
  | none =>
    have hq : get_top_signals st none (some r) n true =
        (List.mergeSort ((st.signals.filter (fun s => s.is_active)).filter
            (fun s => decide (r ≤ s.roi_pct)))
          (fun a b => decide (b.roi_pct ≤ a.roi_pct))).take n := rfl
    have hc := ranking_take_core
      ((st.signals.filter (fun s => s.is_active)).filter
        (fun s => decide (r ≤ s.roi_pct))) n
    rw [hq]
    refine ⟨?_, hc.2.1, hc.2.2⟩
    intro s hs
    have hmem := hc.1 s hs
    have h1 := List.mem_filter.mp hmem
    have h2 := List.mem_filter.mp h1.1
    exact ⟨h2.2, by simpa using h1.2, fun d hd => by cases hd⟩
  | some d0 =>
    by_cases hd0 : d0 = ""
    · subst hd0
      have hq : get_top_signals st (some "") (some r) n true =
          (List.mergeSort ((st.signals.filter (fun s => s.is_active)).filter
              (fun s => decide (r ≤ s.roi_pct)))
            (fun a b => decide (b.roi_pct ≤ a.roi_pct))).take n := rfl
      have hc := ranking_take_core
        ((st.signals.filter (fun s => s.is_active)).filter
          (fun s => decide (r ≤ s.roi_pct))) n
      rw [hq]
      refine ⟨?_, hc.2.1, hc.2.2⟩
      intro s hs
      have hmem := hc.1 s hs
      have h1 := List.mem_filter.mp hmem
      have h2 := List.mem_filter.mp h1.1
      refine ⟨h2.2, by simpa using h1.2, ?_⟩
      intro d hd hne
      exact absurd (Option.some.inj hd).symm hne
    · have hbeq : (d0 == "") = false := by
        simpa using hd0
      have hq : get_top_signals st (some d0) (some r) n true =
          (List.mergeSort (((st.signals.filter (fun s => s.is_active)).filter
              (fun s => s.direction == d0)).filter
              (fun s => decide (r ≤ s.roi_pct)))
            (fun a b => decide (b.roi_pct ≤ a.roi_pct))).take n := by
        unfold get_top_signals
        dsimp only
        rw [hbeq]
        rfl
      have hc := ranking_take_core
        (((st.signals.filter (fun s => s.is_active)).filter
          (fun s => s.direction == d0)).filter
          (fun s => decide (r ≤ s.roi_pct))) n
      rw [hq]
      refine ⟨?_, hc.2.1, hc.2.2⟩
      intro s hs
      have hmem := hc.1 s hs
      have h1 := List.mem_filter.mp hmem
      have h2 := List.mem_filter.mp h1.1
      have h3 := List.mem_filter.mp h2.1
      refine ⟨h3.2, by simpa using h1.2, ?_⟩
      intro d hd hne
      have hdd : d = d0 := (Option.some.inj hd).symm
      subst hdd
      simpa using h2.2

/-- Active signal fixture with unit ROI for the ranking witness. -/
def sigTop : ArbitrageSignal :=
  { id := 5, direction := "CSFLOAT_TO_BUFF"
    market_hash_name := "AWP | Asiimov (Field-Tested)"
    buff_goods_id := some 1, csfloat_listing_id := some 7
    buff_floor_cny := some 130, buff_floor_usd := some 130
    csfloat_price_usd := some 100, roi_pct := 1
    created_at := 0, note := none, is_active := true, acted_on := false }

/-- Store fixture for the ranking witness: one active signal. -/
def storeRank : Store :=
  { buff_items := [], snapshots := [], signals := [sigTop], next_id := 6 }

/-- Witness for C6: the query with minimum ROI 0 over the one-signal store
returns that signal, and by C6 it is active with ROI ≥ 0. -/
theorem C6_ranking_witness :
    sigTop ∈ get_top_signals storeRank none (some 0) 5 true ∧
    sigTop.is_active = true ∧ (0:ℚ) ≤ sigTop.roi_pct := by
  have h3 : ((storeRank.signals.filter (fun s => s.is_active)).filter
      (fun s => decide ((0:ℚ) ≤ s.roi_pct))) = [sigTop] := rfl
  have h4 : get_top_signals storeRank none (some 0) 5 true = [sigTop] := by
    show (List.mergeSort ((storeRank.signals.filter (fun s => s.is_active)).filter
        (fun s => decide ((0:ℚ) ≤ s.roi_pct)))
      (fun a b => decide (b.roi_pct ≤ a.roi_pct))).take 5 = [sigTop]
    rw [h3, List.mergeSort_singleton]
    rfl
  have hmem : sigTop ∈ get_top_signals storeRank none (some 0) 5 true := by
    rw [h4]
    exact List.mem_cons_self _ _
  have h := (C6_ranking storeRank none 0 5).1 sigTop hmem
  exact ⟨hmem, h.1, h.2.1⟩

/-- Trade fixture: bought at $100, sold at $120 two days later. -/
def tradeClosed : Trade :=
  { market_hash_name := "AK-47 | Redline (Field-Tested)"
    direction := "CSFLOAT_TO_BUFF"
    buy_market := "CSFLOAT", sell_market := some "BUFF"
    buy_price_usd := 100, sell_price_usd := some 120
    buy_time := 0, sell_time := some 48, note := none }

/-- C8: a trade's derived metrics are pure functions of its stored fields:
ROI and profit are defined exactly when the sell price is, hold duration
exactly when the sell time is, with profit = sell − buy and
ROI = (sell − buy)/buy; the $100-buy/$120-sell trade has profit $20 and ROI
0.20. -/
theorem C8_trade_metrics (t : Trade) :
    (t.roi_pct.isSome ↔ t.sell_price_usd.isSome) ∧
    (t.profit_usd.isSome ↔ t.sell_price_usd.isSome) ∧
    (t.hold_days.isSome ↔ t.sell_time.isSome) ∧
    (∀ sp, t.sell_price_usd = some sp →
      t.profit_usd = some (sp - t.buy_price_usd) ∧
      t.roi_pct = some ((sp - t.buy_price_usd) / t.buy_price_usd)) ∧
    (t.sell_price_usd = none → t.roi_pct = none ∧ t.profit_usd = none) ∧
    (t.sell_time = none → t.hold_days = none) ∧
    tradeClosed.profit_usd = some 20 ∧ tradeClosed.roi_pct = some (20/100) := by
  refine ⟨?_, ?_, ?_, ?_, ?_, ?_, ?_, ?_⟩
  · cases h : t.sell_price_usd <;> simp [Trade.roi_pct, h]
  · cases h : t.sell_price_usd <;> simp [Trade.profit_usd, h]
  · cases h : t.sell_time <;> simp [Trade.hold_days, h]
  · intro sp hsp
    exact ⟨by simp [Trade.profit_usd, hsp], by simp [Trade.roi_pct, hsp]⟩
  · intro hnone
    exact ⟨by simp [Trade.roi_pct, hnone], by simp [Trade.profit_usd, hnone]⟩
  · intro hnone
    simp [Trade.hold_days, hnone]
  · show Trade.profit_usd tradeClosed = some 20
    norm_num [tradeClosed, Trade.profit_usd]
  · show Trade.roi_pct tradeClosed = some (20/100)
    norm_num [tradeClosed, Trade.roi_pct]

/-- Witness for C8: the closed trade's sell price is $120, and the theorem's
formula gives its profit as 120 − 100. -/
theorem C8_trade_metrics_witness :
    tradeClosed.sell_price_usd = some 120 ∧
    tradeClosed.profit_usd = some ((120:ℚ) - tradeClosed.buy_price_usd) := by
  refine ⟨rfl, ?_⟩
  exact ((C8_trade_metrics tradeClosed).2.2.2.1 120 rfl).1

end CS2Arb
